import Mathlib

/-!
Verification development for the `js_memory_manager` crate
(shape-based property store, string interner, mark/sweep GC, C ABI layer).

The Rust sources are embedded shallowly:

* `InternedString` handles are allocation indices of the interner's map;
  `Arc::ptr_eq` (the crate's `PartialEq for InternedString`) is equality of
  those indices.
* `Arc<PropertyShape>` values are allocation indices into an explicit
  `ShapeStore`; "identity-equal shapes" means equal store indices.  `Weak`
  references are modeled as always upgradable; the concrete scenarios below
  never depend on the content of a node the Rust program would already have
  dropped, and where a dead-`Weak` fallback could fire a comment says why
  the observed result is the same either way.
* An IEEE-754 double is only ever stored and moved by this crate (never
  computed on), so a `Number` carries its 64-bit pattern as a `Nat`.
* The property `HashMap<InternedString, usize>` is content-keyed here: on a
  single thread the interner maps byte-equal contents to one `Arc`, so the
  pointer-keyed probe of the source coincides with content lookup.  The map
  is stored as an association list in insertion order; `HashMap` iteration
  order is unspecified, so operations that iterate the map take the
  iteration order as an explicit argument.
-/

namespace JSMM

/-- `JSObjectType` from `object.rs`: the closed set of type tags. -/
inductive JSObjectType where
  | Object
  | Array
  | Function
  | String
  | Number
  | Boolean
  | Null
  | Undefined
deriving DecidableEq, Repr

/-- `JSValue` from `object.rs`.  `Number` carries the bit pattern of the
`f64` (the crate stores and retrieves doubles, never computes on them);
`String` carries the interned content; `Object` carries a reference
(heap index) to a script object. -/
inductive JSValue where
  | Undefined
  | Null
  | Boolean (b : Bool)
  | Number (bits : Nat)
  | String (s : String)
  | Object (ref : Nat)
deriving DecidableEq, Repr

/-! ## String interner (`string_interner.rs`)

The interner's `HashMap<String, Arc<String>>` is a list of
(content, handle) pairs; a handle is the allocation index of the
`Arc<String>`, so `Arc::ptr_eq` between two `InternedString` values is
equality of their handles.  Entries are never removed, so an allocation
is never reused for different content. -/

structure StringInterner where
  strings : List (String × Nat)
  next : Nat
deriving DecidableEq, Repr

/-- Association-list lookup: the content probe of a hash map keyed by
(deduplicated, hence content-faithful) interned strings. -/
def alookup {α : Type} : List (String × α) → String → Option α
  | [], _ => none
  | (k, v) :: ps, s => if k = s then some v else alookup ps s

/-- `HashMap::insert`: replace the value if the key is present, extend the
map otherwise. -/
def minsert {α : Type} : List (String × α) → String → α → List (String × α)
  | [], k, v => [(k, v)]
  | (k', v') :: ps, k, v =>
    if k' = k then (k, v) :: ps else (k', v') :: minsert ps k v

/-- `StringInterner::new`. -/
def StringInterner.mkNew : StringInterner := ⟨[], 0⟩

/-- `StringInterner::intern`: return the existing handle for present
content, otherwise allocate a fresh handle and record it. -/
def StringInterner.intern (st : StringInterner) (s : String) :
    Nat × StringInterner :=
  match alookup st.strings s with
  | some h => (h, st)
  | none => (st.next, ⟨st.strings ++ [(s, st.next)], st.next + 1⟩)

/-- Well-formedness of an interner state: contents are not duplicated,
handles are not duplicated, and every handle predates the allocation
counter.  The fresh interner is well-formed and `intern` preserves
well-formedness. -/
def StringInterner.WF (st : StringInterner) : Prop :=
  (st.strings.map Prod.fst).Nodup ∧
  (st.strings.map Prod.snd).Nodup ∧
  ∀ p ∈ st.strings, p.2 < st.next

instance (st : StringInterner) : Decidable st.WF := by
  unfold StringInterner.WF; infer_instance

/-! ## Property shapes (`shape.rs`)

An `Arc<PropertyShape>` is an index into the `shapes` list of a
`ShapeStore`; two shape references are identity-equal exactly when the
indices are equal.  `shape.rs` declares a function-local
`static NEXT_SHAPE_ID` inside `new_empty` AND a second, distinct
function-local `static NEXT_SHAPE_ID` inside `transition_to`; both start
at 0 and count independently, which the two counters of `ShapeStore`
reproduce.  The advisory `ref_count` field (statistics only, per the
source comment) is not modeled. -/

structure PropertyShape where
  id : Nat
  property_map : List (String × Nat)
  parent : Option Nat
  added_property : Option String
  transitions : List (String × Nat)
deriving DecidableEq, Repr

/-- `PropertyShape::get_property_index`. -/
def PropertyShape.get_property_index (sh : PropertyShape) (name : String) :
    Option Nat :=
  alookup sh.property_map name

/-- `PropertyShape::property_count`. -/
def PropertyShape.property_count (sh : PropertyShape) : Nat :=
  sh.property_map.length

/-- `PropertyShape::property_names` iterates `property_map.keys()` of a
`std::collections::HashMap`, whose iteration order is unspecified; the
model therefore takes the iteration order as an explicit argument `ord`
(a permutation of the entry positions chosen by the hash map's internal
layout) and reads the keys in that order. -/
def PropertyShape.property_names (ord : List Nat) (sh : PropertyShape) :
    List String :=
  ord.filterMap fun i => sh.property_map[i]?.map Prod.fst

/-- The property names in insertion order (the order in which they were
added from the root shape): the spelled-out right-hand side of the
spec's `property_names` contract. -/
def PropertyShape.insertionNames (sh : PropertyShape) : List String :=
  sh.property_map.map Prod.fst

structure ShapeStore where
  shapes : List PropertyShape
  /-- the `static NEXT_SHAPE_ID` local to `PropertyShape::new_empty` -/
  nextEmptyId : Nat
  /-- the (distinct) `static NEXT_SHAPE_ID` local to `transition_to` -/
  nextTransId : Nat
deriving DecidableEq, Repr

def ShapeStore.init : ShapeStore := ⟨[], 0, 0⟩

def defaultShape : PropertyShape := ⟨0, [], none, none, []⟩

/-- Dereference a shape reference.  Valid references (the only ones the
Rust program can hold) always hit; the default is never consulted under
the well-formedness hypotheses used below. -/
def ShapeStore.getShape (st : ShapeStore) (r : Nat) : PropertyShape :=
  st.shapes[r]?.getD defaultShape

/-- `PropertyShape::new_empty`: a fresh root shape, with an id drawn from
`new_empty`'s own static counter. -/
def ShapeStore.new_empty (st : ShapeStore) : Nat × ShapeStore :=
  (st.shapes.length,
   { shapes := st.shapes ++
       [{ id := st.nextEmptyId, property_map := [], parent := none,
          added_property := none, transitions := [] }],
     nextEmptyId := st.nextEmptyId + 1,
     nextTransId := st.nextTransId })

/-- `PropertyShape::transition_to`.  Mirrors the source exactly:

1. probe this shape's transition cache (never the property map itself);
2. on a miss, extend a clone of the map with `property ↦ property_count`
   (`HashMap::insert`, so a present key is re-pointed at the new index);
3. resolve `self_arc` from the parent — the parent's strong reference
   when there is one, otherwise a fresh `new_empty` allocation (the same
   fallback fires when the parent `Weak` is dead);
4. allocate the new shape with an id from `transition_to`'s own static
   counter and cache the transition on `self`.

The `none` row of the outer match is unreachable for the valid references
the Rust program holds. -/
def ShapeStore.transition_to (st : ShapeStore) (self : Nat)
    (property : String) : Nat × ShapeStore :=
  match st.shapes[self]? with
  | none => (self, st)
  | some node =>
    match alookup node.transitions property with
    | some t => (t, st)
    | none =>
      let next_index := node.property_map.length
      let new_map := minsert node.property_map property next_index
      let pr := match node.parent with
        | some p => (p, st)
        | none => st.new_empty
      let st1 := pr.2
      let newRef := st1.shapes.length
      let new_shape : PropertyShape :=
        { id := st1.nextTransId, property_map := new_map,
          parent := some pr.1, added_property := some property,
          transitions := [] }
      let cached := (st1.shapes ++ [new_shape]).set self
        { node with transitions := minsert node.transitions property newRef }
      (newRef,
       { shapes := cached, nextEmptyId := st1.nextEmptyId,
         nextTransId := st1.nextTransId + 1 })

/-! ## Script objects (`object.rs`)

`JSObjectInner` carries the state behind the object's readers-writer
lock.  The optional finalizer (a C function pointer, exercised only on
`Drop`) plays no part in the claims below and is omitted. -/

structure JSObjectInner where
  obj_type : JSObjectType
  shape : Nat
  values : List JSValue
  marked : Bool
deriving DecidableEq, Repr

/-- `JSObjectInner::new`, the object construction performed by
`JSObject::new` and `GarbageCollector::create_object`: a fresh object
whose shape is a freshly allocated empty root shape. -/
def JSObjectInner.mkNew (st : ShapeStore) (t : JSObjectType) :
    JSObjectInner × ShapeStore :=
  let pr := st.new_empty
  ({ obj_type := t, shape := pr.1, values := [], marked := false }, pr.2)

/-- Write `v` at `index`, growing the vector with `Undefined` padding when
`index` is out of range — the `values[index] = value` /
`values.resize_with(index + 1, || JSValue::Undefined)` pattern used by
both branches of `set_property`. -/
def listWrite (vs : List JSValue) (index : Nat) (v : JSValue) : List JSValue :=
  if index < vs.length then vs.set index v
  else (vs ++ List.replicate (index + 1 - vs.length) JSValue.Undefined).set index v

/-- `JSObject::set_property`.  The advisory `add_reference` /
`remove_reference` calls (statistics-only ref counter) are not modeled.
`.getD 0` stands for the source's `.unwrap()` on the index of the freshly
transitioned shape, which never panics under the store coherence
hypotheses used below. -/
def JSObjectInner.set_property (st : ShapeStore) (o : JSObjectInner)
    (key : String) (value : JSValue) : JSObjectInner × ShapeStore :=
  match (st.getShape o.shape).get_property_index key with
  | some index => ({ o with values := listWrite o.values index value }, st)
  | none =>
    let pr := st.transition_to o.shape key
    let st' := pr.2
    let index := ((st'.getShape pr.1).get_property_index key).getD 0
    ({ o with shape := pr.1, values := listWrite o.values index value }, st')

/-- `JSObject::get_property`: slot value on a hit within bounds,
`Undefined` on absence or out-of-range. -/
def JSObjectInner.get_property (st : ShapeStore) (o : JSObjectInner)
    (key : String) : JSValue :=
  match (st.getShape o.shape).get_property_index key with
  | some index => o.values.getD index JSValue.Undefined
  | none => JSValue.Undefined

/-- Store coherence: every cached transition of every shape leads to a
shape that does carry the cached property name.  Freshly built stores are
coherent and every operation above preserves coherence; it is exactly
what the `.unwrap()` in `set_property` relies on. -/
def ShapeStore.CacheCoherent (st : ShapeStore) : Prop :=
  ∀ sh ∈ st.shapes, ∀ pt ∈ sh.transitions,
    (alookup (st.getShape pt.2).property_map pt.1).isSome = true

instance (st : ShapeStore) : Decidable st.CacheCoherent := by
  unfold ShapeStore.CacheCoherent; infer_instance

/-! ## Mark phase (`object.rs`, `JSObject::mark`)

`mark` takes the object's write lock, sets the mark bit, then recurses
into every object-valued slot WITHOUT checking whether the referent is
already marked.  On a cyclic object graph the recursion therefore never
returns (with the non-reentrant `parking_lot` lock it deadlocks as soon
as an object on the current lock-holding path is revisited).  The model
makes the call-depth explicit as fuel: `none` means the call did not
complete within `fuel` nested `mark` invocations — true for every fuel
exactly when the code's `mark` does not return. -/

mutual

def markObj (fuel : Nat) (heap : List JSObjectInner) (i : Nat) :
    Option (List JSObjectInner) :=
  match fuel with
  | 0 => none
  | fuel' + 1 =>
    match heap[i]? with
    | none => some heap
    | some o =>
      markValues fuel' (heap.set i { o with marked := true }) o.values
termination_by (fuel, 0)

def markValues (fuel : Nat) (heap : List JSObjectInner) (vs : List JSValue) :
    Option (List JSObjectInner) :=
  match vs with
  | [] => some heap
  | v :: rest =>
    match v with
    | JSValue.Object j =>
      match markObj fuel heap j with
      | none => none
      | some heap' => markValues fuel heap' rest
    | _ => markValues fuel heap rest
termination_by (fuel, vs.length + 1)

end

/-! ## FFI boundary (`ffi.rs`)

Each typed getter returns the C return code paired with what was written
through the out pointer: `none` means the output location was left
untouched. -/

/-- `js_get_property_number`: writes the double (its bit pattern here)
only in the `Number` branch. -/
def js_get_property_number (st : ShapeStore) (o : JSObjectInner)
    (key : String) : Int × Option Nat :=
  match JSObjectInner.get_property st o key with
  | JSValue.Number n => (1, some n)
  | _ => (0, none)

/-- `js_get_property_boolean`: writes `1`/`0` only in the `Boolean`
branch. -/
def js_get_property_boolean (st : ShapeStore) (o : JSObjectInner)
    (key : String) : Int × Option Int :=
  match JSObjectInner.get_property st o key with
  | JSValue.Boolean b => (1, some (if b then 1 else 0))
  | _ => (0, none)

/-- `js_get_property_object`: the `Object` branch writes a fresh handle;
the fallback branch executes `*out_value = ptr::null_mut()` BEFORE
returning 0, so it writes a null handle (`some none`) rather than leaving
the location untouched. -/
def js_get_property_object (st : ShapeStore) (o : JSObjectInner)
    (key : String) : Int × Option (Option Nat) :=
  match JSObjectInner.get_property st o key with
  | JSValue.Object r => (1, some (some r))
  | _ => (0, some none)

/-- `js_get_property_string`: the flags say which of the three pointer
arguments are null.  The second component lists the bytes written into
the caller's buffer, in order (`none` = nothing written). -/
def js_get_property_string (obj_null key_null buffer_null : Bool)
    (buffer_size : Nat) (st : ShapeStore) (o : JSObjectInner)
    (key : String) : Int × Option (List UInt8) :=
  if obj_null || key_null || buffer_null || buffer_size == 0 then (0, none)
  else
    match JSObjectInner.get_property st o key with
    | JSValue.String s =>
      let bytes := s.toUTF8.toList
      let copy_size := min bytes.length (buffer_size - 1)
      (1, some (bytes.take copy_size ++ [0]))
    | _ => (0, none)

/-! ## GC size estimate (`gc.rs`, `GarbageCollector::estimate_object_size`)

The function iterates `inner.properties` as a (name, value) association —
a field the current `JSObjectInner` does not declare (stale code from
before the shape refactor; the crate does not compile as shipped).  The
iteration is modeled over the property association it names.
`szJSObject`, `szString`, `szJSValue` stand for the target-dependent
`mem::size_of` constants. -/

def estimate_object_size (szJSObject szString szJSValue : Nat)
    (properties : List (String × JSValue)) : Nat :=
  let base := szJSObject + properties.length * (szString + szJSObject)
  properties.foldl
    (fun size kv =>
      size + kv.1.utf8ByteSize +
        match kv.2 with
        | JSValue.String s => s.utf8ByteSize
        | _ => szJSValue)
    base

/-- Sum of the byte lengths of the string-valued slots (the last summand
of the spec's size formula). -/
def stringSlotBytes (properties : List (String × JSValue)) : Nat :=
  (properties.map fun kv =>
    match kv.2 with
    | JSValue.String s => s.utf8ByteSize
    | _ => 0).sum

/-- What one property actually contributes beyond the per-slot overhead:
its key's byte length plus either the string value's byte length or
`size_of::<JSValue>()`. -/
def slotContribution (szJSValue : Nat) (kv : String × JSValue) : Nat :=
  kv.1.utf8ByteSize +
    match kv.2 with
    | JSValue.String s => s.utf8ByteSize
    | _ => szJSValue

/-! ## Concrete scenarios used as inputs below -/

/-- The §8 shape-convergence experiment, as the crate's own
`test_shape_based_properties` stages it: two fresh objects, the same
property added to each in the same (one-element) order.  Components:
(first object, second object, final store). -/
def convergenceScenario : JSObjectInner × JSObjectInner × ShapeStore :=
  let a := JSObjectInner.mkNew ShapeStore.init JSObjectType.Object
  let b := JSObjectInner.mkNew a.2 JSObjectType.Object
  let a1 := JSObjectInner.set_property b.2 a.1 "a" (JSValue.Number 1)
  let b1 := JSObjectInner.set_property a1.2 b.1 "a" (JSValue.Number 1)
  (a1.1, b1.1, b1.2)

/-- A root shape transitioned once to hold "a", then asked to transition
on "a" again — the duplicate-property probe of §9.  Components: (shape
holding "a", result of the duplicate transition, final store). -/
def duplicateTransitionScenario : Nat × Nat × ShapeStore :=
  let e := ShapeStore.init.new_empty
  let t1 := e.2.transition_to e.1 "a"
  let t2 := t1.2.transition_to t1.1 "a"
  (t1.1, t2.1, t2.2)

/-- One `new_empty` followed by one `transition_to`: three shape
allocations in creation order (the root, the junk empty shape allocated
for the root's missing parent, and the transition result). -/
def idScenario : ShapeStore :=
  let e := ShapeStore.init.new_empty
  (e.2.transition_to e.1 "x").2

/-- A one-object heap whose object points to itself through an
object-valued slot, as `js_set_property_object(a, "self", a)` builds. -/
def selfCycleHeap : List JSObjectInner :=
  [{ obj_type := JSObjectType.Object, shape := 0,
     values := [JSValue.Object 0], marked := false }]

/-- A fresh object with no properties, with its store. -/
def freshObj : JSObjectInner × ShapeStore :=
  JSObjectInner.mkNew ShapeStore.init JSObjectType.Object

/-- One object given properties "a" then "b", in that order. -/
def twoPropScenario : JSObjectInner × ShapeStore :=
  let a := JSObjectInner.mkNew ShapeStore.init JSObjectType.Object
  let s1 := JSObjectInner.set_property a.2 a.1 "a" (JSValue.Number 1)
  let s2 := JSObjectInner.set_property s1.2 s1.1 "b" (JSValue.Number 2)
  (s2.1, s2.2)

/-- One object holding the string "hi" under key "name". -/
def strObjScenario : JSObjectInner × ShapeStore :=
  let a := JSObjectInner.mkNew ShapeStore.init JSObjectType.Object
  JSObjectInner.set_property a.2 a.1 "name" (JSValue.String "hi")

/-! # Theorems -/

/-! ## Association list and interner lemmas -/

theorem alookup_mem {α : Type} {l : List (String × α)} {s : String} {v : α}
    (h : alookup l s = some v) : (s, v) ∈ l := by
  induction l with
  | nil => simp [alookup] at h
  | cons p ps ih =>
    obtain ⟨k, w⟩ := p
    by_cases hk : k = s
    · subst hk
      simp [alookup] at h
      subst h
      exact List.mem_cons_self _ _
    · simp [alookup, hk] at h
      exact List.mem_cons_of_mem _ (ih h)

theorem alookup_eq_none_of_not_mem {α : Type} {l : List (String × α)}
    {s : String} (h : s ∉ l.map Prod.fst) : alookup l s = none := by
  induction l with
  | nil => rfl
  | cons p ps ih =>
    obtain ⟨k, w⟩ := p
    have h1 : ¬ k = s := by
      intro e
      apply h
      rw [List.map_cons, e]
      exact List.mem_cons_self _ _
    have h2 : s ∉ ps.map Prod.fst := by
      intro e
      apply h
      rw [List.map_cons]
      exact List.mem_cons_of_mem _ e
    rw [alookup, if_neg h1]
    exact ih h2

theorem not_mem_keys_of_alookup_eq_none {α : Type} {l : List (String × α)}
    {s : String} (h : alookup l s = none) : s ∉ l.map Prod.fst := by
  induction l with
  | nil => simp
  | cons p ps ih =>
    obtain ⟨k, w⟩ := p
    by_cases hk : k = s
    · rw [alookup, if_pos hk] at h
      exact absurd h (by simp)
    · rw [alookup, if_neg hk] at h
      rw [List.map_cons]
      intro hmem
      rcases List.mem_cons.mp hmem with he | he
      · exact hk he.symm
      · exact ih h he

theorem alookup_append_right {α : Type} {l l' : List (String × α)}
    {s : String} (h : alookup l s = none) :
    alookup (l ++ l') s = alookup l' s := by
  induction l with
  | nil => rfl
  | cons p ps ih =>
    obtain ⟨k, w⟩ := p
    by_cases hk : k = s
    · simp [alookup, hk] at h
    · simp only [List.cons_append, alookup, if_neg hk] at h ⊢
      exact ih h

theorem alookup_append_left {α : Type} {l l' : List (String × α)}
    {s : String} {v : α} (h : alookup l s = some v) :
    alookup (l ++ l') s = some v := by
  induction l with
  | nil => simp [alookup] at h
  | cons p ps ih =>
    obtain ⟨k, w⟩ := p
    by_cases hk : k = s
    · simp only [alookup, if_pos hk] at h ⊢
      exact h
    · simp only [List.cons_append, alookup, if_neg hk] at h ⊢
      exact ih h

theorem StringInterner.mkNew_WF : StringInterner.mkNew.WF := by
  refine ⟨List.nodup_nil, List.nodup_nil, ?_⟩
  intro p hp
  simp [StringInterner.mkNew] at hp

/-- Unfolding equation of `intern` on a cache miss. -/
theorem StringInterner.intern_none {st : StringInterner} {s : String}
    (h : alookup st.strings s = none) :
    st.intern s = (st.next, ⟨st.strings ++ [(s, st.next)], st.next + 1⟩) := by
  unfold StringInterner.intern
  rw [h]

/-- Unfolding equation of `intern` on a cache hit. -/
theorem StringInterner.intern_some {st : StringInterner} {s : String} {v : Nat}
    (h : alookup st.strings s = some v) : st.intern s = (v, st) := by
  unfold StringInterner.intern
  rw [h]

theorem StringInterner.intern_WF (st : StringInterner) (s : String)
    (h : st.WF) : (st.intern s).2.WF := by
  obtain ⟨h1, h2, h3⟩ := h
  cases hl : alookup st.strings s with
  | some v => rw [StringInterner.intern_some hl]; exact ⟨h1, h2, h3⟩
  | none =>
    rw [StringInterner.intern_none hl]
    refine ⟨?_, ?_, ?_⟩
    · simp only [List.map_append, List.map_cons, List.map_nil]
      rw [List.nodup_append]
      refine ⟨h1, List.nodup_singleton _, ?_⟩
      intro a ha hb
      simp at hb
      subst hb
      exact not_mem_keys_of_alookup_eq_none hl ha
    · simp only [List.map_append, List.map_cons, List.map_nil]
      rw [List.nodup_append]
      refine ⟨h2, List.nodup_singleton _, ?_⟩
      intro a ha hb
      simp at hb
      subst hb
      simp only [List.mem_map] at ha
      obtain ⟨p, hp, hps⟩ := ha
      have := h3 p hp
      omega
    · intro p hp
      show p.2 < st.next + 1
      simp at hp
      rcases hp with hp | hp
      · have := h3 p hp
        omega
      · simp [hp]

/-! ## C1, C2, C8: shape identity -/

/-- C1.  The claimed shape convergence fails on the code: two distinct
fresh objects given the same property sequence (here the single name "a")
end on DISTINCT shape instances with distinct ids — each `JSObjectInner::new`
allocates its own root shape via `PropertyShape::new_empty`, so the two
objects transition inside disjoint shape trees.  The final property maps
are equal, so the divergence is purely one of identity, exactly what the
claim (and the crate's own `test_shape_based_properties`, which compares
`Debug` output including the ids) rules out. -/
theorem shape_convergence_fails_two_fresh_objects :
    convergenceScenario.1.shape ≠ convergenceScenario.2.1.shape ∧
    (convergenceScenario.2.2.getShape convergenceScenario.1.shape).id ≠
      (convergenceScenario.2.2.getShape convergenceScenario.2.1.shape).id ∧
    (convergenceScenario.2.2.getShape convergenceScenario.1.shape).property_map =
      (convergenceScenario.2.2.getShape convergenceScenario.2.1.shape).property_map := by
  decide

/-- C2.  `transition_to` on a shape whose map already contains the name
does NOT return the same shape: the cache probe misses (the cache of the
probed shape is empty), so the code builds a fresh shape whose map
re-points "a" at index 1 — a non-dense map on a one-property shape —
instead of returning the unchanged original with map `[("a", 0)]`. -/
theorem transition_to_on_present_name_new_shape :
    (duplicateTransitionScenario.2.2.getShape duplicateTransitionScenario.1).property_map
      = [("a", 0)] ∧
    duplicateTransitionScenario.2.1 ≠ duplicateTransitionScenario.1 ∧
    (duplicateTransitionScenario.2.2.getShape duplicateTransitionScenario.2.1).property_map
      = [("a", 1)] := by
  decide

/-- C8.  Shape ids are neither process-unique nor monotone in creation
order: `new_empty` and `transition_to` each own a separate
`static NEXT_SHAPE_ID` starting at 0, so after one `new_empty` and one
`transition_to` the three shapes created (root, junk parent substitute,
transition result) carry ids 0, 1, 0 — the id 0 is duplicated and the
creation-order id sequence is not increasing. -/
theorem shape_ids_collide :
    idScenario.shapes.map PropertyShape.id = [0, 1, 0] ∧
    ¬ (idScenario.shapes.map PropertyShape.id).Nodup := by
  decide

/-! ## C3: the mark phase on a cyclic graph -/

theorem markObj_self_loop_none (fuel : Nat) :
    ∀ (heap : List JSObjectInner) (o : JSObjectInner),
      heap[0]? = some o → o.values = [JSValue.Object 0] →
      markObj fuel heap 0 = none := by
  induction fuel with
  | zero =>
    intro heap o h hv
    simp [markObj]
  | succ n ih =>
    intro heap o h hv
    have hlen : 0 < heap.length := by
      cases heap with
      | nil => simp at h
      | cons x xs => simp
    rw [markObj, h]
    show markValues n (heap.set 0 { o with marked := true }) o.values = none
    set o2 := { o with marked := true } with ho2
    have hset : (heap.set 0 o2)[0]? = some o2 :=
      List.getElem?_set_eq_of_lt _ hlen
    have hv2 : o2.values = [JSValue.Object 0] := hv
    have hrec : markObj n (heap.set 0 o2) 0 = none := ih _ o2 hset hv2
    rw [hv, markValues, hrec]

/-- C3.  `mark()` does not terminate on a cyclic object graph: on the
one-object self cycle it recurses into the already-marked object without
any mark-bit check (with the non-reentrant `parking_lot` write lock the
first revisit deadlocks), so no recursion depth suffices — the fuelled
model returns `none` for every fuel. -/
theorem mark_diverges_on_self_cycle :
    ∀ fuel : Nat, markObj fuel selfCycleHeap 0 = none := by
  intro fuel
  exact markObj_self_loop_none fuel selfCycleHeap _ rfl rfl

/-! ## C4: interning identity -/

/-- In a map whose handles are not duplicated, a handle determines its
content. -/
theorem mem_snd_inj {l : List (String × Nat)} (h : (l.map Prod.snd).Nodup)
    {a c : String} {b : Nat} (ha : (a, b) ∈ l) (hc : (c, b) ∈ l) : a = c := by
  induction l with
  | nil => simp at ha
  | cons p ps ih =>
    rw [List.map_cons, List.nodup_cons] at h
    rcases List.mem_cons.mp ha with ha' | ha' <;>
      rcases List.mem_cons.mp hc with hc' | hc'
    · exact congrArg Prod.fst (ha'.trans hc'.symm)
    · exfalso
      apply h.1
      rw [← ha']
      exact List.mem_map.mpr ⟨(c, b), hc', rfl⟩
    · exfalso
      apply h.1
      rw [← hc']
      exact List.mem_map.mpr ⟨(a, b), ha', rfl⟩
    · exact ih h.2 ha' hc'

/-- C4: Interning identity and distinctness.  From any well-formed
interner state, `intern s` and then `intern s'` return identity-equal
handles (`Arc::ptr_eq`, i.e. equal allocation indices) exactly when `s`
and `s'` are byte-equal. -/
theorem intern_identity_iff (st : StringInterner) (hWF : st.WF)
    (s s' : String) :
    (st.intern s).1 = ((st.intern s).2.intern s').1 ↔ s = s' := by
  obtain ⟨h1, h2, h3⟩ := hWF
  cases hl : alookup st.strings s with
  | some v =>
    rw [StringInterner.intern_some hl]
    cases hl' : alookup st.strings s' with
    | some v' =>
      rw [StringInterner.intern_some hl']
      show v = v' ↔ s = s'
      constructor
      · intro he
        exact mem_snd_inj h2 (alookup_mem hl) (by rw [he]; exact alookup_mem hl')
      · intro he
        subst he
        rw [hl] at hl'
        injection hl'
    | none =>
      rw [StringInterner.intern_none hl']
      show v = st.next ↔ s = s'
      have hv : v < st.next := h3 _ (alookup_mem hl)
      constructor
      · intro he
        omega
      · intro he
        subst he
        rw [hl] at hl'
        simp at hl'
  | none =>
    rw [StringInterner.intern_none hl]
    by_cases hss : s = s'
    · subst hss
      refine iff_of_true ?_ rfl
      show st.next =
        ((⟨st.strings ++ [(s, st.next)], st.next + 1⟩ : StringInterner).intern s).1
      have hstep :
          alookup (st.strings ++ [(s, st.next)]) s = some st.next := by
        rw [alookup_append_right hl]
        simp [alookup]
      rw [@StringInterner.intern_some
        ⟨st.strings ++ [(s, st.next)], st.next + 1⟩ s st.next hstep]
    · refine iff_of_false ?_ hss
      show ¬ st.next =
        ((⟨st.strings ++ [(s, st.next)], st.next + 1⟩ : StringInterner).intern s').1
      intro he
      cases hl' : alookup st.strings s' with
      | some v' =>
        have hstep : alookup (st.strings ++ [(s, st.next)]) s' = some v' :=
          alookup_append_left hl'
        rw [@StringInterner.intern_some
          ⟨st.strings ++ [(s, st.next)], st.next + 1⟩ s' v' hstep] at he
        have hv : v' < st.next := h3 _ (alookup_mem hl')
        have he2 : st.next = v' := he
        omega
      | none =>
        have hstep : alookup (st.strings ++ [(s, st.next)]) s' = none := by
          rw [alookup_append_right hl']
          simp [alookup, hss]
        rw [@StringInterner.intern_none
          ⟨st.strings ++ [(s, st.next)], st.next + 1⟩ s' hstep] at he
        have he2 : st.next = st.next + 1 := he
        omega

/-- Witness for C4 at the fresh interner: "hello"/"hello" are
identity-equal, "hello"/"world" are not. -/
theorem intern_identity_iff_witness :
    ((StringInterner.mkNew.intern "hello").1 =
      ((StringInterner.mkNew.intern "hello").2.intern "hello").1) ∧
    ¬ ((StringInterner.mkNew.intern "hello").1 =
      ((StringInterner.mkNew.intern "hello").2.intern "world").1) :=
  ⟨(intern_identity_iff StringInterner.mkNew (by decide) "hello" "hello").mpr rfl,
   fun h =>
     absurd ((intern_identity_iff StringInterner.mkNew (by decide) "hello" "world").mp h)
       (by decide)⟩

/-! ## C5: property round trip -/

theorem alookup_minsert_self {α : Type} (l : List (String × α)) (k : String)
    (v : α) : alookup (minsert l k v) k = some v := by
  induction l with
  | nil => simp [minsert, alookup]
  | cons p ps ih =>
    obtain ⟨k', v'⟩ := p
    by_cases hk : k' = k
    · rw [minsert, if_pos hk, alookup, if_pos rfl]
    · rw [minsert, if_neg hk, alookup, if_neg hk]
      exact ih

theorem listWrite_getD (vs : List JSValue) (i : Nat) (v : JSValue) :
    (listWrite vs i v).getD i JSValue.Undefined = v := by
  unfold listWrite
  by_cases h : i < vs.length
  · rw [if_pos h, List.getD_eq_getElem?_getD,
      List.getElem?_set_eq_of_lt _ h]
    rfl
  · rw [if_neg h]
    have hlen :
        i < (vs ++ List.replicate (i + 1 - vs.length) JSValue.Undefined).length := by
      rw [List.length_append, List.length_replicate]
      omega
    rw [List.getD_eq_getElem?_getD, List.getElem?_set_eq_of_lt _ hlen]
    rfl

/-- Unfolding of `get_property` on a map hit. -/
theorem get_property_hit {st : ShapeStore} {o : JSObjectInner} {key : String}
    {i : Nat} (h : (st.getShape o.shape).get_property_index key = some i) :
    JSObjectInner.get_property st o key = o.values.getD i JSValue.Undefined := by
  unfold JSObjectInner.get_property
  rw [h]

/-- Unfolding of `set_property` when the current shape already has the
key. -/
theorem set_property_hit {st : ShapeStore} {o : JSObjectInner} {key : String}
    {i : Nat} {v : JSValue}
    (h : (st.getShape o.shape).get_property_index key = some i) :
    JSObjectInner.set_property st o key v =
      ({ o with values := listWrite o.values i v }, st) := by
  unfold JSObjectInner.set_property
  rw [h]

/-- Unfolding of `set_property` when the key is absent from the current
shape. -/
theorem set_property_miss {st : ShapeStore} {o : JSObjectInner} {key : String}
    {v : JSValue}
    (h : (st.getShape o.shape).get_property_index key = none) :
    JSObjectInner.set_property st o key v =
      ({ o with
          shape := (st.transition_to o.shape key).1,
          values := listWrite o.values
            ((((st.transition_to o.shape key).2.getShape
                (st.transition_to o.shape key).1).get_property_index key).getD 0)
            v },
       (st.transition_to o.shape key).2) := by
  unfold JSObjectInner.set_property
  rw [h]

/-- Unfolding of `transition_to` on a transition-cache hit. -/
theorem transition_to_hit {st : ShapeStore} {self : Nat}
    {node : PropertyShape} {p : String} {t : Nat}
    (hn : st.shapes[self]? = some node)
    (hc : alookup node.transitions p = some t) :
    st.transition_to self p = (t, st) := by
  unfold ShapeStore.transition_to
  rw [hn]
  dsimp only
  rw [hc]

/-- Unfolding of `transition_to` on a cache miss. -/
theorem transition_to_miss {st : ShapeStore} {self : Nat}
    {node : PropertyShape} {p : String}
    (hn : st.shapes[self]? = some node)
    (hc : alookup node.transitions p = none) :
    st.transition_to self p =
      (let pr : Nat × ShapeStore :=
        match node.parent with
        | some q => (q, st)
        | none => st.new_empty
       let newRef := pr.2.shapes.length
       (newRef,
        { shapes := (pr.2.shapes ++
            [({ id := pr.2.nextTransId,
                property_map := minsert node.property_map p
                  node.property_map.length,
                parent := some pr.1, added_property := some p,
                transitions := [] } : PropertyShape)]).set self
            { node with transitions := minsert node.transitions p newRef },
          nextEmptyId := pr.2.nextEmptyId,
          nextTransId := pr.2.nextTransId + 1 })) := by
  unfold ShapeStore.transition_to
  rw [hn]
  dsimp only
  rw [hc]

/-- Looking up the just-appended shape in the store produced by a
cache-missing transition: the update of `self`'s transition cache does
not touch the appended position. -/
theorem getShape_mk_concat_set (shapes1 : List PropertyShape) (self : Nat)
    (ns nd : PropertyShape) (e1 e2 : Nat) (h : self < shapes1.length) :
    ShapeStore.getShape ⟨(shapes1 ++ [ns]).set self nd, e1, e2⟩
      shapes1.length = ns := by
  unfold ShapeStore.getShape
  show ((shapes1 ++ [ns]).set self nd)[shapes1.length]?.getD defaultShape = ns
  rw [List.getElem?_set_ne (by omega), List.getElem?_concat_length]
  rfl

/-- Whatever `transition_to` returns for `key` — a cached successor or a
freshly built shape — the returned shape carries `key` in its map,
provided the store is cache-coherent.  This is what `set_property`'s
`.unwrap()` relies on. -/
theorem transition_result_has_key (st : ShapeStore) (self : Nat)
    (key : String) (node : PropertyShape)
    (hn : st.shapes[self]? = some node) (hself : self < st.shapes.length)
    (hcache : st.CacheCoherent) :
    ∃ j, ((st.transition_to self key).2.getShape
      (st.transition_to self key).1).get_property_index key = some j := by
  cases hcc : alookup node.transitions key with
  | some t =>
    rw [transition_to_hit hn hcc]
    show ∃ j, (st.getShape t).get_property_index key = some j
    have hsome := hcache node (List.getElem?_mem hn) (key, t) (alookup_mem hcc)
    obtain ⟨j, hj⟩ := Option.isSome_iff_exists.mp hsome
    exact ⟨j, hj⟩
  | none =>
    rw [transition_to_miss hn hcc]
    cases hp : node.parent with
    | some q =>
      dsimp only
      refine ⟨node.property_map.length, ?_⟩
      rw [getShape_mk_concat_set st.shapes self _ _ _ _ hself]
      exact alookup_minsert_self node.property_map key node.property_map.length
    | none =>
      dsimp only [ShapeStore.new_empty]
      refine ⟨node.property_map.length, ?_⟩
      have hself2 : self <
          (st.shapes ++
            [({ id := st.nextEmptyId, property_map := [], parent := none,
                added_property := none, transitions := [] } : PropertyShape)]).length := by
        rw [List.length_append]
        omega
      rw [getShape_mk_concat_set _ self _ _ _ _ hself2]
      exact alookup_minsert_self node.property_map key node.property_map.length

/-- Reading back the key just written through a transitioned shape whose
map carries the key. -/
theorem get_after_set_generic (st' : ShapeStore) (o : JSObjectInner)
    (r : Nat) (key : String) (v : JSValue) (j : Nat)
    (hj : (st'.getShape r).get_property_index key = some j) :
    JSObjectInner.get_property st'
      { o with shape := r,
               values := listWrite o.values
                 (((st'.getShape r).get_property_index key).getD 0) v }
      key = v := by
  have hj2 : (st'.getShape
      ({ o with shape := r,
                values := listWrite o.values
                  (((st'.getShape r).get_property_index key).getD 0) v }).shape).get_property_index
        key = some j := hj
  rw [get_property_hit hj2, hj]
  exact listWrite_getD o.values j v

/-- C5: Property round trip.  For every cache-coherent store, every
object holding a valid shape reference, every key and every value (of
any variant), `set_property(key, v)` followed by `get_property(key)`
returns `v`. -/
theorem set_get_round_trip (st : ShapeStore) (o : JSObjectInner)
    (key : String) (v : JSValue)
    (href : o.shape < st.shapes.length) (hcache : st.CacheCoherent) :
    JSObjectInner.get_property (JSObjectInner.set_property st o key v).2
      (JSObjectInner.set_property st o key v).1 key = v := by
  cases hidx : (st.getShape o.shape).get_property_index key with
  | some i =>
    rw [set_property_hit hidx]
    show JSObjectInner.get_property st
      { o with values := listWrite o.values i v } key = v
    have h2 : (st.getShape
        ({ o with values := listWrite o.values i v }).shape).get_property_index
          key = some i := hidx
    rw [get_property_hit h2]
    exact listWrite_getD o.values i v
  | none =>
    obtain ⟨j, hj⟩ := transition_result_has_key st o.shape key _
      (List.getElem?_eq_getElem href) href hcache
    rw [set_property_miss hidx]
    show JSObjectInner.get_property (st.transition_to o.shape key).2
      { o with
          shape := (st.transition_to o.shape key).1,
          values := listWrite o.values
            ((((st.transition_to o.shape key).2.getShape
                (st.transition_to o.shape key).1).get_property_index key).getD 0)
            v } key = v
    exact get_after_set_generic _ o _ key v j hj

/-- Witness for C5: a fresh store and object, key "k", value
`Boolean true`. -/
theorem set_get_round_trip_witness :
    JSObjectInner.get_property
      (JSObjectInner.set_property freshObj.2 freshObj.1 "k"
        (JSValue.Boolean true)).2
      (JSObjectInner.set_property freshObj.2 freshObj.1 "k"
        (JSValue.Boolean true)).1 "k" = JSValue.Boolean true :=
  set_get_round_trip freshObj.2 freshObj.1 "k" (JSValue.Boolean true)
    (by decide) (by decide)

/-! ## C6: typed getters on failure -/

/-- C6 counterexample: `js_get_property_object` on an absent property
returns 0 but DOES write through the out pointer — it stores a null
handle (`*out_value = ptr::null_mut()`) before returning 0. -/
theorem object_getter_writes_on_failure :
    (js_get_property_object freshObj.2 freshObj.1 "k").1 = 0 ∧
    (js_get_property_object freshObj.2 freshObj.1 "k").2 ≠ none := by
  decide

/-- C6 amended: when they return 0 (property absent or wrong-typed), the
number and boolean getters leave the output location untouched, while
the object getter writes a null handle through it. -/
theorem typed_getter_failure_output (st : ShapeStore) (o : JSObjectInner)
    (key : String) :
    ((js_get_property_number st o key).1 = 0 →
      (js_get_property_number st o key).2 = none) ∧
    ((js_get_property_boolean st o key).1 = 0 →
      (js_get_property_boolean st o key).2 = none) ∧
    ((js_get_property_object st o key).1 = 0 →
      (js_get_property_object st o key).2 = some none) := by
  unfold js_get_property_number js_get_property_boolean js_get_property_object
  cases JSObjectInner.get_property st o key <;> simp

/-- Witness for C6 (amended), at a fresh object and key "k". -/
theorem typed_getter_failure_output_witness :
    (js_get_property_number freshObj.2 freshObj.1 "k").2 = none ∧
    (js_get_property_boolean freshObj.2 freshObj.1 "k").2 = none ∧
    (js_get_property_object freshObj.2 freshObj.1 "k").2 = some none :=
  ⟨(typed_getter_failure_output freshObj.2 freshObj.1 "k").1 (by decide),
   (typed_getter_failure_output freshObj.2 freshObj.1 "k").2.1 (by decide),
   (typed_getter_failure_output freshObj.2 freshObj.1 "k").2.2 (by decide)⟩

/-! ## C7: property_names order -/

/-- C7 counterexample: reading the keys in reversed bucket order — an
admissible `HashMap` iteration order, being a permutation of the entry
positions — makes `property_names` differ from insertion order on the
two-property shape built by adding "a" then "b". -/
theorem property_names_order_counterexample :
    List.Perm [1, 0]
      (List.range
        (twoPropScenario.2.getShape twoPropScenario.1.shape).property_map.length) ∧
    PropertyShape.property_names [1, 0]
        (twoPropScenario.2.getShape twoPropScenario.1.shape) ≠
      PropertyShape.insertionNames
        (twoPropScenario.2.getShape twoPropScenario.1.shape) := by
  decide

theorem filterMap_range_getElem {α β : Type} (l : List α) (f : α → β) :
    (List.range l.length).filterMap (fun i => l[i]?.map f) = l.map f := by
  induction l with
  | nil => rfl
  | cons x xs ih =>
    rw [List.length_cons, List.range_succ_eq_map, List.filterMap_cons]
    simp only [List.getElem?_cons_zero, Option.map_some']
    rw [List.filterMap_map]
    have hfun : ((fun i => (x :: xs)[i]?.map f) ∘ Nat.succ) =
        fun i => xs[i]?.map f := by
      funext i
      simp [List.getElem?_cons_succ]
    rw [List.map_cons]
    congr 1
    rw [hfun]
    exact ih

/-- C7 amended: for every admissible iteration order (a permutation of
the map's entry positions), `property_names` returns a PERMUTATION of
the insertion-order names — the same names, in no guaranteed order. -/
theorem property_names_perm_insertion (sh : PropertyShape) (ord : List Nat)
    (hperm : ord.Perm (List.range sh.property_map.length)) :
    (PropertyShape.property_names ord sh).Perm sh.insertionNames := by
  unfold PropertyShape.property_names PropertyShape.insertionNames
  have h1 := hperm.filterMap (fun i => sh.property_map[i]?.map Prod.fst)
  rw [filterMap_range_getElem sh.property_map Prod.fst] at h1
  exact h1

/-- Witness for C7 (amended), at the "a" then "b" shape with reversed
iteration order. -/
theorem property_names_perm_insertion_witness :
    (PropertyShape.property_names [1, 0]
        (twoPropScenario.2.getShape twoPropScenario.1.shape)).Perm
      (PropertyShape.insertionNames
        (twoPropScenario.2.getShape twoPropScenario.1.shape)) :=
  property_names_perm_insertion _ [1, 0] (by decide)

/-! ## C9: the size estimate -/

/-- C9 counterexample: no pair of constants makes the estimate equal to
"constant + count × per-slot + string-slot bytes": two one-property
objects with equal slot counts and no string slots (keys "x" and "xy")
get different estimates, because the code also adds each KEY's byte
length (and `size_of::<JSValue>()` for non-string slots). -/
theorem estimate_size_not_spec_formula :
    ¬ ∃ C S : Nat, ∀ props : List (String × JSValue),
      estimate_object_size 48 24 16 props =
        C + props.length * S + stringSlotBytes props := by
  rintro ⟨C, S, h⟩
  have h1 := h [("x", JSValue.Number 0)]
  have h2 := h [("xy", JSValue.Number 0)]
  have e1 : estimate_object_size 48 24 16 [("x", JSValue.Number 0)] = 137 := by
    decide
  have e2 : estimate_object_size 48 24 16 [("xy", JSValue.Number 0)] = 138 := by
    decide
  have e3 : stringSlotBytes [("x", JSValue.Number 0)] = 0 := by decide
  have e4 : stringSlotBytes [("xy", JSValue.Number 0)] = 0 := by decide
  rw [e1, e3] at h1
  rw [e2, e4] at h2
  simp at h1 h2
  omega

theorem foldl_add_contribution (szJSValue : Nat) (b : Nat)
    (l : List (String × JSValue)) :
    l.foldl (fun size kv =>
      size + kv.1.utf8ByteSize +
        match kv.2 with
        | JSValue.String s => s.utf8ByteSize
        | _ => szJSValue) b =
      b + (l.map (slotContribution szJSValue)).sum := by
  induction l generalizing b with
  | nil => simp
  | cons kv rest ih =>
    obtain ⟨k, val⟩ := kv
    cases val <;>
      simp only [List.foldl_cons, List.map_cons, List.sum_cons,
        slotContribution] <;>
      rw [ih] <;> omega

/-- C9 amended: the estimate equals `size_of::<JSObject>()` plus
`count × (size_of::<String>() + size_of::<JSObject>())` plus, per
property, the key's byte length plus either the string value's byte
length (string slots) or `size_of::<JSValue>()` (all other slots). -/
theorem estimate_object_size_closed_form (szJSObject szString szJSValue : Nat)
    (properties : List (String × JSValue)) :
    estimate_object_size szJSObject szString szJSValue properties =
      szJSObject + properties.length * (szString + szJSObject) +
        (properties.map (slotContribution szJSValue)).sum := by
  unfold estimate_object_size
  exact foldl_add_contribution szJSValue _ properties

/-! ## C10: string getter buffer safety -/

/-- C10: `js_get_property_string` returns 0 and writes nothing when any
pointer argument is null or `buffer_size` is 0; whenever it returns 1,
what it wrote is at most `buffer_size - 1` content bytes followed by one
NUL terminator, never exceeding the buffer. -/
theorem get_property_string_safe (obj_null key_null buffer_null : Bool)
    (buffer_size : Nat) (st : ShapeStore) (o : JSObjectInner) (key : String) :
    ((obj_null = true ∨ key_null = true ∨ buffer_null = true ∨ buffer_size = 0) →
      js_get_property_string obj_null key_null buffer_null buffer_size st o key =
        (0, none)) ∧
    ((js_get_property_string obj_null key_null buffer_null buffer_size st o key).1 = 1 →
      ∃ content : List UInt8,
        (js_get_property_string obj_null key_null buffer_null buffer_size st o key).2 =
          some (content ++ [0]) ∧
        content.length ≤ buffer_size - 1 ∧ content.length + 1 ≤ buffer_size) := by
  unfold js_get_property_string
  by_cases hc : (obj_null || key_null || buffer_null || (buffer_size == 0)) = true
  · rw [if_pos hc]
    constructor
    · intro _
      rfl
    · intro h1
      exact absurd h1 (by decide)
  · rw [if_neg hc]
    constructor
    · intro hd
      exfalso
      apply hc
      rcases hd with h | h | h | h
      · simp [h]
      · simp [h]
      · simp [h]
      · simp [h]
    · have hb : buffer_size ≠ 0 := by
        intro h0
        apply hc
        simp [h0]
      cases hv : JSObjectInner.get_property st o key with
      | String s =>
        intro _
        refine ⟨(s.toUTF8.toList).take
          (min s.toUTF8.toList.length (buffer_size - 1)), rfl, ?_, ?_⟩
        · rw [List.length_take]
          exact le_trans (min_le_left _ _) (min_le_right _ _)
        · rw [List.length_take]
          have hm : min (min s.toUTF8.toList.length (buffer_size - 1))
              s.toUTF8.toList.length ≤ buffer_size - 1 :=
            le_trans (min_le_left _ _) (min_le_right _ _)
          omega
      | Undefined => intro h1; simp at h1
      | Null => intro h1; simp at h1
      | Boolean b => intro h1; simp at h1
      | Number n => intro h1; simp at h1
      | Object r => intro h1; simp at h1

/-- Witness for C10: the null path at `obj_null = true`, and the success
path on the object holding "hi" with an 8-byte buffer. -/
theorem get_property_string_safe_witness :
    js_get_property_string true false false 8 strObjScenario.2 strObjScenario.1
        "name" = (0, none) ∧
    ∃ content : List UInt8,
      (js_get_property_string false false false 8 strObjScenario.2
          strObjScenario.1 "name").2 = some (content ++ [0]) ∧
      content.length ≤ 8 - 1 ∧ content.length + 1 ≤ 8 :=
  ⟨(get_property_string_safe true false false 8 strObjScenario.2
      strObjScenario.1 "name").1 (Or.inl rfl),
   (get_property_string_safe false false false 8 strObjScenario.2
      strObjScenario.1 "name").2 (by decide)⟩
